import Mathlib

set_option autoImplicit false

namespace CorpChat

/-- Opaque JSON-like payload values carried by `input_data`, `output_data`,
`metadata` and event `content` in the source. -/
inductive Val where
  | str (s : String)
  | num (n : Int)
  | boolean (b : Bool)
deriving DecidableEq, Repr

/-- Association-list lookup: first entry whose key matches, as Python dict
lookup over insertion-ordered entries with unique keys. -/
def aget {V : Type} : List (String × V) → String → Option V
  | [], _ => none
  | (k, v) :: rest, key => if k == key then some v else aget rest key

/-- Association-list store: `d[key] = v` in Python — replace the value at an
existing key in place, else append a new entry at the end. -/
def aset {V : Type} : List (String × V) → String → V → List (String × V)
  | [], key, v => [(key, v)]
  | (k, w) :: rest, key, v =>
      if k == key then (key, v) :: rest else (k, w) :: aset rest key v

/-- Association-list delete: `del d[key]` in Python — drop the first entry
whose key matches. -/
def aremove {V : Type} : List (String × V) → String → List (String × V)
  | [], _ => []
  | (k, w) :: rest, key => if k == key then rest else (k, w) :: aremove rest key

/-- Opaque key-value payload (a Python dict of `Val`s). -/
abbrev Dict := List (String × Val)

/-- Python `old.update(m)`: write every entry of `m` into `old` in order. -/
def dictMerge (old m : Dict) : Dict :=
  m.foldl (fun acc kv => aset acc kv.1 kv.2) old

/-- TaskStatus enum from `shared/types.py`. -/
inductive TaskStatus where
  | pending
  | inProgress
  | completed
  | failed
  | authRequired
deriving DecidableEq, BEq, Repr

/-- TaskInfo model from `shared/types.py`: one unit of work.  Timestamps are
modelled as natural-number clock readings supplied by the caller. -/
structure TaskInfo where
  task_id : String
  context_id : String
  status : TaskStatus
  skill_id : String
  input_data : Dict
  output_data : Option Dict := none
  error_message : Option String := none
  created_at : Option Nat := none
  updated_at : Option Nat := none
deriving DecidableEq, Repr

/-- TaskManager state from `a2a/task_manager.py`: the task store `_tasks` and
the context index `_contexts` (context_id to task-id list), both
insertion-ordered maps. -/
structure TaskManager where
  tasks : List (String × TaskInfo)
  contexts : List (String × List String)
deriving DecidableEq, Repr

def TaskManager.empty : TaskManager := ⟨[], []⟩

/-- `TaskManager._validate_task_info`: all four identifying fields must be
non-empty (Python truthiness on strings and dicts). -/
def validateTaskInfo (t : TaskInfo) : Bool :=
  t.task_id != "" && t.context_id != "" && t.skill_id != "" && !t.input_data.isEmpty

/-- `TaskManager.create_task`.  The source validates the fresh `TaskInfo`,
stores it under `task_id` (a plain dict assignment, overwriting any existing
entry — there is no duplicate check), and appends the id to the context
index.  On validation failure the error is re-raised as `A2AProtocolError`
with the stores untouched. -/
def TaskManager.create_task (tm : TaskManager) (context_id skill_id : String)
    (input_data : Dict) (task_id : String) (now : Nat) :
    Except String TaskInfo × TaskManager :=
  let t : TaskInfo :=
    { task_id := task_id, context_id := context_id, status := .pending,
      skill_id := skill_id, input_data := input_data, created_at := some now }
  if validateTaskInfo t then
    let ctxList := (aget tm.contexts context_id).getD []
    (.ok t,
      { tasks := aset tm.tasks task_id t,
        contexts := aset tm.contexts context_id (ctxList ++ [task_id]) })
  else
    (.error "A2AProtocolError: ValidationError", tm)

def TaskManager.get_task (tm : TaskManager) (task_id : String) : Option TaskInfo :=
  aget tm.tasks task_id

/-- `TaskManager.get_tasks_by_context`: resolve the context's id list against
the store, skipping ids that no longer exist. -/
def TaskManager.get_tasks_by_context (tm : TaskManager) (context_id : String) :
    List TaskInfo :=
  ((aget tm.contexts context_id).getD []).filterMap (fun tid => aget tm.tasks tid)

def TaskManager.get_tasks_by_status (tm : TaskManager) (status : TaskStatus) :
    List TaskInfo :=
  (tm.tasks.map Prod.snd).filter (fun t => t.status == status)

/-- Transition table of `TaskManager._validate_status_transition`. -/
def validTransition : TaskStatus → TaskStatus → Bool
  | .pending, new => new == .inProgress || new == .failed || new == .authRequired
  | .inProgress, new => new == .completed || new == .failed || new == .authRequired
  | .authRequired, new => new == .inProgress || new == .failed
  | .completed, _ => false
  | .failed, _ => false

/-- `TaskManager.update_task_status`.  Mirrors the source's order of
operations exactly: the stored task is mutated first (status, `updated_at`
stamp, optional payload merge), and only then is
`_validate_status_transition(task_info.status, status)` called — with the
already-overwritten status as its first argument.  The returned state
therefore keeps the mutation even when the call reports an error. -/
def TaskManager.update_task_status (tm : TaskManager) (task_id : String)
    (status : TaskStatus) (output_data : Option Dict)
    (error_message : Option String) (now : Nat) :
    Except String TaskInfo × TaskManager :=
  match aget tm.tasks task_id with
  | none => (.error "A2AProtocolError: task not found", tm)
  | some t =>
      let t' : TaskInfo :=
        { t with
          status := status,
          updated_at := some now,
          output_data := match output_data with
            | some d => some d
            | none => t.output_data,
          error_message := match error_message with
            | some m => some m
            | none => t.error_message }
      let tm' : TaskManager := { tm with tasks := aset tm.tasks task_id t' }
      if validTransition t'.status status then (.ok t', tm')
      else (.error "A2AProtocolError: invalid status transition", tm')

/-- `TaskManager.start_task` wrapper. -/
def TaskManager.start_task (tm : TaskManager) (task_id : String) (now : Nat) :
    Except String TaskInfo × TaskManager :=
  tm.update_task_status task_id .inProgress none none now

/-- `TaskManager.complete_task` wrapper. -/
def TaskManager.complete_task (tm : TaskManager) (task_id : String)
    (output_data : Dict) (now : Nat) : Except String TaskInfo × TaskManager :=
  tm.update_task_status task_id .completed (some output_data) none now

/-- `TaskManager.fail_task` wrapper. -/
def TaskManager.fail_task (tm : TaskManager) (task_id : String)
    (error_message : String) (now : Nat) : Except String TaskInfo × TaskManager :=
  tm.update_task_status task_id .failed none (some error_message) now

/-- `TaskManager.require_auth_task` wrapper. -/
def TaskManager.require_auth_task (tm : TaskManager) (task_id : String)
    (auth_message : String) (now : Nat) : Except String TaskInfo × TaskManager :=
  tm.update_task_status task_id .authRequired none (some auth_message) now

/-- `TaskManager.delete_task`: remove the task id from its context's index
list (dropping the index entry entirely if the list becomes empty), then
remove the task from the store; returns whether a task was deleted. -/
def TaskManager.delete_task (tm : TaskManager) (task_id : String) :
    Bool × TaskManager :=
  match aget tm.tasks task_id with
  | none => (false, tm)
  | some t =>
      let contexts' :=
        match aget tm.contexts t.context_id with
        | none => tm.contexts
        | some l =>
            let l' := l.erase task_id
            if l'.isEmpty then aremove tm.contexts t.context_id
            else aset tm.contexts t.context_id l'
      (true, { tasks := aremove tm.tasks task_id, contexts := contexts' })

/-- Loop body of `TaskManager.delete_context`.  The source iterates over the
live list object stored in `_contexts[context_id]` while `delete_task`
removes elements from that same object; Python's iterator reads the element
at its running index from the current list each step.  Re-reading the list
from the state at each step (with a missing entry read as the emptied list)
is observationally identical to that aliasing. -/
def deleteContextGo (context_id : String) :
    Nat → Nat → Nat → TaskManager → Nat × TaskManager
  | 0, _, count, tm => (count, tm)
  | fuel + 1, i, count, tm =>
      let l := (aget tm.contexts context_id).getD []
      if h : i < l.length then
        let tid := l.get ⟨i, h⟩
        let r := tm.delete_task tid
        deleteContextGo context_id fuel (i + 1)
          (count + if r.1 then 1 else 0) r.2
      else (count, tm)

/-- `TaskManager.delete_context`: delete each task currently indexed under
the context via `delete_task`, returning the number deleted.  The fuel bound
covers every iteration the Python loop can perform, since the iterated list
never grows. -/
def TaskManager.delete_context (tm : TaskManager) (context_id : String) :
    Nat × TaskManager :=
  deleteContextGo context_id
    (((aget tm.contexts context_id).getD []).length + 1) 0 0 tm

/-- Shape of `TaskManager.get_task_statistics`'s result dict. -/
structure TaskStatistics where
  total_tasks : Nat
  total_contexts : Nat
  status_counts : List (TaskStatus × Nat)
  contexts : List String
deriving DecidableEq, Repr

def allTaskStatuses : List TaskStatus :=
  [.pending, .inProgress, .completed, .failed, .authRequired]

/-- `TaskManager.get_task_statistics`. -/
def TaskManager.get_task_statistics (tm : TaskManager) : TaskStatistics :=
  { total_tasks := tm.tasks.length,
    total_contexts := tm.contexts.length,
    status_counts :=
      allTaskStatuses.map (fun s => (s, (tm.get_tasks_by_status s).length)),
    contexts := tm.contexts.map Prod.fst }

/-- A create or delete request against the Task Manager, for reasoning about
operation sequences. -/
inductive TaskOp where
  | create (context_id skill_id : String) (input_data : Dict)
      (task_id : String) (now : Nat)
  | delete (task_id : String)
deriving Repr

def applyTaskOp (tm : TaskManager) : TaskOp → TaskManager
  | .create c s i t n => (tm.create_task c s i t n).2
  | .delete t => (tm.delete_task t).2

def applyTaskOps (tm : TaskManager) (ops : List TaskOp) : TaskManager :=
  ops.foldl applyTaskOp tm

/-- Event dataclass from `a2a/event_queue.py`. -/
structure Event where
  event_id : String
  event_type : String
  content : Val
  metadata : Dict := []
  sender_id : Option String := none
  receiver_id : Option String := none
  priority : Int := 0
deriving DecidableEq, Repr

/-- EventQueue state from `a2a/event_queue.py`: three FIFO lanes plus the
processed and dropped counters. -/
structure EventQueue where
  max_size : Nat := 1000
  high_priority_queue : List Event := []
  normal_priority_queue : List Event := []
  low_priority_queue : List Event := []
  total_events_processed : Nat := 0
  total_events_dropped : Nat := 0
deriving DecidableEq, Repr

/-- `EventQueue._get_total_size`. -/
def EventQueue.getTotalSize (q : EventQueue) : Nat :=
  q.high_priority_queue.length + q.normal_priority_queue.length +
    q.low_priority_queue.length

/-- `EventQueue.size`. -/
def EventQueue.size (q : EventQueue) : Nat := q.getTotalSize

/-- `EventQueue.is_empty`. -/
def EventQueue.is_empty (q : EventQueue) : Bool := q.getTotalSize == 0

/-- `EventQueue.put`: if the total queued count has reached `max_size` the
event is dropped and the drop counter incremented — no error is raised and
nothing is reported to the caller (the method returns `None` either way);
otherwise the event (with its priority field set from the argument) is
appended to the lane selected by the sign of the priority. -/
def EventQueue.put (q : EventQueue) (e : Event) (priority : Int) : EventQueue :=
  if q.getTotalSize ≥ q.max_size then
    { q with total_events_dropped := q.total_events_dropped + 1 }
  else
    let ev := { e with priority := priority }
    if priority > 0 then
      { q with high_priority_queue := q.high_priority_queue ++ [ev] }
    else if priority < 0 then
      { q with low_priority_queue := q.low_priority_queue ++ [ev] }
    else
      { q with normal_priority_queue := q.normal_priority_queue ++ [ev] }

/-- `EventQueue.get`: pop the head of the first non-empty lane in
high, normal, low order; `none` when all lanes are empty. -/
def EventQueue.get (q : EventQueue) : Option Event × EventQueue :=
  match q.high_priority_queue with
  | e :: rest =>
      (some e, { q with high_priority_queue := rest,
                        total_events_processed := q.total_events_processed + 1 })
  | [] =>
      match q.normal_priority_queue with
      | e :: rest =>
          (some e, { q with normal_priority_queue := rest,
                            total_events_processed := q.total_events_processed + 1 })
      | [] =>
          match q.low_priority_queue with
          | e :: rest =>
              (some e, { q with low_priority_queue := rest,
                                total_events_processed := q.total_events_processed + 1 })
          | [] => (none, q)

/-- Repeatedly call `EventQueue.get`, collecting the returned events until
`none` or the fuel runs out. -/
def EventQueue.drain (q : EventQueue) : Nat → List Event
  | 0 => []
  | fuel + 1 =>
      match q.get with
      | (some e, q') => e :: q'.drain fuel
      | (none, _) => []

/-- AgentSkill as consumed by `AgentDiscovery._matches_query`, which reads
each skill's name. -/
structure DiscoverySkill where
  id : String
  name : String
deriving DecidableEq, Repr

/-- AgentCard as consumed by `a2a/discovery.py`: identity, declared skills
and opaque metadata. -/
structure DiscoveryCard where
  id : String
  name : String
  skills : List DiscoverySkill := []
  metadata : Dict := []
deriving DecidableEq, Repr

/-- Discovery query dict: an optional `skills` clause (required skill names)
and an optional `metadata` clause (required key-value pairs).  `none` for the
whole query models a falsy (absent or empty) query dict. -/
structure AgentQuery where
  skills : Option (List String) := none
  metadata : Option Dict := none
deriving Repr

/-- `AgentDiscovery._matches_query`: a falsy query matches everything; a
`skills` clause requires every listed name among the card's skill names; a
`metadata` clause requires every key to map to exactly the given value. -/
def matchesQuery (card : DiscoveryCard) (query : Option AgentQuery) : Bool :=
  match query with
  | none => true
  | some q =>
      (match q.skills with
       | none => true
       | some required =>
           required.all (fun s => (card.skills.map DiscoverySkill.name).contains s)) &&
      (match q.metadata with
       | none => true
       | some required =>
           required.all (fun kv => aget card.metadata kv.1 == some kv.2))

/-- AgentDiscovery registry state: `agent_registry`, an insertion-ordered map
from agent id to card. -/
structure AgentDiscovery where
  agent_registry : List (String × DiscoveryCard)
deriving Repr

/-- `AgentDiscovery.discover_agents`: every registered card matching the
query, in registry iteration order. -/
def AgentDiscovery.discover_agents (d : AgentDiscovery)
    (query : Option AgentQuery) : List DiscoveryCard :=
  (d.agent_registry.map Prod.snd).filter (fun card => matchesQuery card query)

/-- ContextInfo from `a2a/context_manager.py`. -/
structure ContextInfo where
  context_id : String
  name : String
  description : String
  metadata : Dict
  created_at : Nat
  updated_at : Nat
  task_ids : List String
deriving DecidableEq, Repr

/-- ContextInfo constructor: `name or default` and `description or default`
follow Python truthiness, so an absent or empty argument takes the default. -/
def mkContextInfo (context_id : String) (name description : Option String)
    (metadata : Option Dict) (now : Nat) : ContextInfo :=
  { context_id := context_id,
    name :=
      match name with
      | some n => if n == "" then "Context-" ++ context_id.take 8 else n
      | none => "Context-" ++ context_id.take 8,
    description :=
      match description with
      | some d => if d == "" then "Contexto para agrupación de tareas relacionadas" else d
      | none => "Contexto para agrupación de tareas relacionadas",
    metadata := metadata.getD [],
    created_at := now,
    updated_at := now,
    task_ids := [] }

/-- ContextManager state: the `_contexts` store. -/
structure ContextManager where
  contexts : List (String × ContextInfo)
deriving Repr

/-- `ContextManager._validate_context_info`. -/
def validateContextInfo (c : ContextInfo) : Bool :=
  c.context_id != "" && c.name != "" && c.description != ""

/-- Update payload for `ContextManager.update_context`: `some` models the
corresponding key being present in the updates dict. -/
structure ContextUpdates where
  name : Option String := none
  description : Option String := none
  metadata : Option Dict := none
deriving Repr

/-- `ContextManager.update_context`.  For an existing context the source
overwrites `name`/`description` when those keys are present, merges the
`metadata` entry into the stored metadata with `dict.update`, stamps
`updated_at`, and only then re-validates; as in the source, the mutation is
applied to the stored object before validation, so it persists even when
validation fails. -/
def ContextManager.update_context (cm : ContextManager) (context_id : String)
    (updates : ContextUpdates) (now : Nat) :
    Except String ContextInfo × ContextManager :=
  match aget cm.contexts context_id with
  | none => (.error "A2AProtocolError: context not found", cm)
  | some c =>
      let c' : ContextInfo :=
        { c with
          name := updates.name.getD c.name,
          description := updates.description.getD c.description,
          metadata :=
            match updates.metadata with
            | some m => dictMerge c.metadata m
            | none => c.metadata,
          updated_at := now }
      let cm' : ContextManager := { contexts := aset cm.contexts context_id c' }
      if validateContextInfo c' then (.ok c', cm')
      else (.error "A2AProtocolError: ValidationError", cm')

/-- Behaviour of one `agent.execute(context, queue)` call: it either raises,
or returns normally after putting the given events (with priorities) on the
supplied queue. -/
inductive AgentBehavior where
  | raises (msg : String)
  | emits (events : List (Event × Int))

/-- An agent as seen by the Orchestrator: a name and a per-iteration
behaviour (the iteration index reaches the agent through the request
context's metadata in the Loop strategy; other strategies use iteration 0). -/
structure OAgent where
  name : String
  behavior : Nat → AgentBehavior

/-- Queue contents produced by a non-raising `execute` on the fresh
default-sized queue the Orchestrator hands it, followed by the single
`get()` the Orchestrator performs. -/
def agentResponse (events : List (Event × Int)) : Option Event :=
  ((events.foldl (fun q ep => q.put ep.1 ep.2) ({} : EventQueue)).get).1

/-- One normalized result record of `core/orchestrator.py`.  The dict shapes
differ per case: a sequential success record carries agent, response content
and metadata (and no status key); a failure record carries agent, the error
text and status `failed`; loop records additionally carry the iteration. -/
inductive OrchRecord where
  | response (agent : String) (content : Val) (metadata : Dict)
  | failed (agent : String) (error : String)
  | loopResponse (agent : String) (iteration : Nat) (content : Val) (metadata : Dict)
  | loopFailed (agent : String) (iteration : Nat) (error : String)
deriving DecidableEq, Repr

/-- `Orchestrator._sequential_orchestration`: agents one at a time in list
order; an exception appends a failed record; a normal return appends a
response record only when the single `get()` yields an event — a silent
agent appends nothing. -/
def sequentialOrchestration (agents : List OAgent) : List OrchRecord :=
  agents.foldl
    (fun responses a =>
      match a.behavior 0 with
      | .raises msg => responses ++ [.failed a.name msg]
      | .emits evs =>
          match agentResponse evs with
          | some e => responses ++ [.response a.name e.content e.metadata]
          | none => responses)
    []

/-- One iteration of `Orchestrator._loop_orchestration`'s inner loop. -/
def loopIteration (agents : List OAgent) (iter : Nat) : List OrchRecord :=
  agents.foldl
    (fun acc a =>
      match a.behavior iter with
      | .raises msg => acc ++ [.loopFailed a.name iter msg]
      | .emits evs =>
          match agentResponse evs with
          | some e => acc ++ [.loopResponse a.name iter e.content e.metadata]
          | none => acc)
    []

/-- `Orchestrator._should_stop_loop`: stop when some record of the iteration
has status `failed`. -/
def hasFailedRecord (rs : List OrchRecord) : Bool :=
  rs.any fun r =>
    match r with
    | .failed _ _ => true
    | .loopFailed _ _ _ => true
    | _ => false

/-- Outer loop of `Orchestrator._loop_orchestration`: run full-agent-set
iterations, extending the accumulated records, breaking after an iteration
that produced a failed record. -/
def loopOrchestrationGo (agents : List OAgent) :
    Nat → Nat → List OrchRecord → List OrchRecord
  | 0, _, acc => acc
  | fuel + 1, iter, acc =>
      let iterResponses := loopIteration agents iter
      let acc' := acc ++ iterResponses
      if hasFailedRecord iterResponses then acc'
      else loopOrchestrationGo agents fuel (iter + 1) acc'

/-- `Orchestrator._loop_orchestration` with its configured maximum iteration
count (default 5 in the source). -/
def loopOrchestration (agents : List OAgent) (max_iterations : Nat) :
    List OrchRecord :=
  loopOrchestrationGo agents max_iterations 0 []

/-- Record contributed by one agent under the Sequential strategy: a failed
record when it raises, a response record when its queue yields an event, and
nothing when it completes silently. -/
def seqRecordOf (a : OAgent) : Option OrchRecord :=
  match a.behavior 0 with
  | .raises msg => some (.failed a.name msg)
  | .emits evs =>
      (agentResponse evs).map fun e => .response a.name e.content e.metadata

/-- Record contributed by one agent at one Loop iteration. -/
def loopRecordOf (iter : Nat) (a : OAgent) : Option OrchRecord :=
  match a.behavior iter with
  | .raises msg => some (.loopFailed a.name iter msg)
  | .emits evs =>
      (agentResponse evs).map fun e => .loopResponse a.name iter e.content e.metadata

/-- Number of iterations the Loop strategy actually executes: it runs
iterations from the given index until one yields a failed record or the
fuel is exhausted. -/
def loopItersExecuted (agents : List OAgent) : Nat → Nat → Nat
  | 0, _ => 0
  | fuel + 1, iter =>
      if hasFailedRecord (loopIteration agents iter) then 1
      else loopItersExecuted agents fuel (iter + 1) + 1

/-- Matching predicate exactly as the specification words it: with no query
every card matches; a card matches a query when every required skill name
occurs among the card's skill names and every metadata constraint key maps
in the card's metadata to exactly the required value; an absent clause
imposes no constraint. -/
def specMatches (card : DiscoveryCard) (query : Option AgentQuery) : Prop :=
  match query with
  | none => True
  | some q =>
      (∀ s ∈ q.skills.getD [], s ∈ card.skills.map DiscoverySkill.name) ∧
      (∀ kv ∈ q.metadata.getD [], aget card.metadata kv.1 = some kv.2)

/-- Fresh manager holding the single task `t1` (status Pending) in context
`c1`. -/
def tmOne : TaskManager :=
  (TaskManager.empty.create_task "c1" "s1" [("k", .str "v")] "t1" 0).2

/-- Fresh manager holding tasks `t1` and `t2`, both indexed under context
`c1`. -/
def tmTwo : TaskManager :=
  ((TaskManager.empty.create_task "c1" "s" [("k", .str "v")] "t1" 0).2.create_task
    "c1" "s" [("k", .str "v")] "t2" 0).2

/-- Concrete event with a given id and priority field. -/
def mkEv (i : String) (p : Int) : Event :=
  { event_id := i, event_type := "message", content := .str i, priority := p }

/-- Queue built by four puts with priorities high, normal, low, high. -/
def qScenario : EventQueue :=
  (((({} : EventQueue).put (mkEv "e1" 1) 1).put (mkEv "e2" 0) 0).put
      (mkEv "e3" (-1)) (-1)).put (mkEv "e4" 1) 1

/-- Queue of capacity 1 already holding one normal-priority event. -/
def qFull : EventQueue := ({ max_size := 1 } : EventQueue).put (mkEv "a" 0) 0

/-- Agent whose `execute` completes without putting any event on its queue. -/
def silentAgent : OAgent := ⟨"a1", fun _ => .emits []⟩

theorem aget_aset_self {V : Type} (l : List (String × V)) (k : String) (v : V) :
    aget (aset l k v) k = some v := by
  induction l with
  | nil => simp [aget, aset]
  | cons p rest ih =>
      obtain ⟨k0, w⟩ := p
      by_cases h0 : k0 = k
      · simp [aget, aset, h0]
      · simp [aget, aset, h0, ih]

theorem aget_aset_ne {V : Type} (l : List (String × V)) (k : String) (v : V)
    (k' : String) (h : k' ≠ k) : aget (aset l k v) k' = aget l k' := by
  induction l with
  | nil => simp [aget, aset, Ne.symm h]
  | cons p rest ih =>
      obtain ⟨k0, w⟩ := p
      by_cases h0 : k0 = k
      · subst h0
        simp [aget, aset, Ne.symm h]
      · by_cases h1 : k0 = k'
        · simp [aget, aset, h0, h1, h]
        · simp [aget, aset, h0, h1, ih]

theorem mem_aset {V : Type} (l : List (String × V)) (k : String) (v : V)
    (p : String × V) (hp : p ∈ aset l k v) : p = (k, v) ∨ p ∈ l := by
  induction l with
  | nil =>
      simp [aset] at hp
      exact Or.inl hp
  | cons q rest ih =>
      obtain ⟨k0, w⟩ := q
      by_cases h0 : k0 = k
      · simp [aset, h0] at hp
        rcases hp with h | h
        · exact Or.inl (by simp [h])
        · exact Or.inr (by simp [h])
      · simp [aset, h0] at hp
        rcases hp with h | h
        · exact Or.inr (by simp [h])
        · rcases ih h with h' | h'
          · exact Or.inl h'
          · exact Or.inr (by simp [h'])

theorem mem_aremove {V : Type} (l : List (String × V)) (k : String)
    (p : String × V) (hp : p ∈ aremove l k) : p ∈ l := by
  induction l with
  | nil => simp [aremove] at hp
  | cons q rest ih =>
      obtain ⟨k0, w⟩ := q
      by_cases h0 : k0 = k
      · simp [aremove, h0] at hp
        exact List.mem_cons_of_mem _ hp
      · simp [aremove, h0] at hp
        rcases hp with h | h
        · exact List.mem_cons.mpr (Or.inl (by simp [h]))
        · exact List.mem_cons_of_mem _ (ih h)

theorem aget_eq_none {V : Type} (l : List (String × V)) (k : String)
    (h : k ∉ l.map Prod.fst) : aget l k = none := by
  induction l with
  | nil => rfl
  | cons p rest ih =>
      obtain ⟨k0, w⟩ := p
      have h1 : ¬(k = k0 ∨ k ∈ rest.map Prod.fst) := by
        simpa [List.mem_cons] using h
      have hne : k ≠ k0 := fun hh => h1 (Or.inl hh)
      have hrest : k ∉ rest.map Prod.fst := fun hh => h1 (Or.inr hh)
      simp [aget, Ne.symm hne, ih hrest]

theorem dictMerge_aget (old m : Dict) (hnd : (m.map Prod.fst).Nodup)
    (k : String) :
    aget (dictMerge old m) k = (aget m k).or (aget old k) := by
  induction m generalizing old with
  | nil => simp [dictMerge, aget]
  | cons kv rest ih =>
      obtain ⟨k0, v0⟩ := kv
      simp only [List.map_cons, List.nodup_cons] at hnd
      have step : dictMerge old ((k0, v0) :: rest) = dictMerge (aset old k0 v0) rest := by
        simp [dictMerge]
      rw [step, ih (aset old k0 v0) hnd.2]
      by_cases h : k = k0
      · subst h
        have hr : aget rest k = none := aget_eq_none rest k hnd.1
        simp [aget, hr, aget_aset_self]
      · simp [aget, Ne.symm h, aget_aset_ne old k0 v0 k h]

theorem drain_eq (fuel : Nat) :
    ∀ q : EventQueue, q.getTotalSize ≤ fuel →
      q.drain fuel =
        q.high_priority_queue ++ q.normal_priority_queue ++ q.low_priority_queue := by
  induction fuel with
  | zero =>
      intro q h
      obtain ⟨ms, hi, no, lo, pr, dr⟩ := q
      have h' : hi.length + no.length + lo.length ≤ 0 := h
      have e1 : hi = [] := List.length_eq_zero.mp (by omega)
      have e2 : no = [] := List.length_eq_zero.mp (by omega)
      have e3 : lo = [] := List.length_eq_zero.mp (by omega)
      subst e1; subst e2; subst e3
      simp [EventQueue.drain]
  | succ n ih =>
      intro q h
      obtain ⟨ms, hi, no, lo, pr, dr⟩ := q
      cases hi with
      | cons e rest =>
          have hsz : (EventQueue.mk ms rest no lo (pr + 1) dr).getTotalSize ≤ n := by
            simp [EventQueue.getTotalSize] at h ⊢
            omega
          simpa [EventQueue.drain, EventQueue.get] using ih _ hsz
      | nil =>
          cases no with
          | cons e rest =>
              have hsz : (EventQueue.mk ms [] rest lo (pr + 1) dr).getTotalSize ≤ n := by
                simp [EventQueue.getTotalSize] at h ⊢
                omega
              simpa [EventQueue.drain, EventQueue.get] using ih _ hsz
          | nil =>
              cases lo with
              | cons e rest =>
                  have hsz : (EventQueue.mk ms [] [] rest (pr + 1) dr).getTotalSize ≤ n := by
                    simp [EventQueue.getTotalSize] at h ⊢
                    omega
                  simpa [EventQueue.drain, EventQueue.get] using ih _ hsz
              | nil => simp [EventQueue.drain, EventQueue.get]

theorem matchesQuery_iff (card : DiscoveryCard) (query : Option AgentQuery) :
    matchesQuery card query = true ↔ specMatches card query := by
  cases query with
  | none => simp [matchesQuery, specMatches]
  | some q =>
      have h1 :
          (match q.skills with
           | none => true
           | some required =>
               required.all (fun s => (card.skills.map DiscoverySkill.name).contains s)) = true ↔
            ∀ s ∈ q.skills.getD [], s ∈ card.skills.map DiscoverySkill.name := by
        cases q.skills with
        | none => simp
        | some req => simp [List.all_eq_true, List.contains, List.elem_iff]
      have h2 :
          (match q.metadata with
           | none => true
           | some required =>
               required.all (fun kv => aget card.metadata kv.1 == some kv.2)) = true ↔
            ∀ kv ∈ q.metadata.getD [], aget card.metadata kv.1 = some kv.2 := by
        cases q.metadata with
        | none => simp
        | some req => simp [List.all_eq_true]
      show (_ && _) = true ↔ _
      rw [Bool.and_eq_true, h1, h2]
      exact Iff.rfl

theorem seqGo_eq (agents : List OAgent) (acc : List OrchRecord) :
    agents.foldl
      (fun responses a =>
        match a.behavior 0 with
        | .raises msg => responses ++ [.failed a.name msg]
        | .emits evs =>
            match agentResponse evs with
            | some e => responses ++ [.response a.name e.content e.metadata]
            | none => responses)
      acc = acc ++ agents.filterMap seqRecordOf := by
  induction agents generalizing acc with
  | nil => simp
  | cons a rest ih =>
      simp only [List.foldl_cons, List.filterMap_cons]
      cases hb : a.behavior 0 with
      | raises msg => simp [seqRecordOf, hb, ih]
      | emits evs =>
          cases hr : agentResponse evs with
          | none => simp [seqRecordOf, hb, hr, ih]
          | some e => simp [seqRecordOf, hb, hr, ih]

theorem loopIteration_eq (agents : List OAgent) (iter : Nat) :
    loopIteration agents iter = agents.filterMap (loopRecordOf iter) := by
  suffices h : ∀ acc,
      agents.foldl
        (fun acc a =>
          match a.behavior iter with
          | .raises msg => acc ++ [.loopFailed a.name iter msg]
          | .emits evs =>
              match agentResponse evs with
              | some e => acc ++ [.loopResponse a.name iter e.content e.metadata]
              | none => acc)
        acc = acc ++ agents.filterMap (loopRecordOf iter) by
    simpa [loopIteration] using h []
  induction agents with
  | nil => simp
  | cons a rest ih =>
      intro acc
      simp only [List.foldl_cons, List.filterMap_cons]
      cases hb : a.behavior iter with
      | raises msg => simp [loopRecordOf, hb, ih]
      | emits evs =>
          cases hr : agentResponse evs with
          | none => simp [loopRecordOf, hb, hr, ih]
          | some e => simp [loopRecordOf, hb, hr, ih]

theorem loopGo_eq (agents : List OAgent) (fuel : Nat) :
    ∀ (iter : Nat) (acc : List OrchRecord),
      loopOrchestrationGo agents fuel iter acc =
        acc ++ (List.range' iter (loopItersExecuted agents fuel iter)).flatMap
          (loopIteration agents) := by
  induction fuel with
  | zero => intro iter acc; simp [loopOrchestrationGo, loopItersExecuted]
  | succ n ih =>
      intro iter acc
      simp only [loopOrchestrationGo, loopItersExecuted]
      by_cases hf : hasFailedRecord (loopIteration agents iter) = true
      · simp [hf, List.range'_one]
      · simp only [hf, if_false, Bool.false_eq_true, ih]
        rw [List.range'_succ]
        simp

/-- Index entries of the context store all carry a non-empty task-id list. -/
def contextIndexOk (tm : TaskManager) : Prop :=
  ∀ p ∈ tm.contexts, p.2 ≠ []

theorem contextIndexOk_applyTaskOp (tm : TaskManager) (op : TaskOp)
    (h : contextIndexOk tm) : contextIndexOk (applyTaskOp tm op) := by
  cases op with
  | create c s i t n =>
      unfold contextIndexOk at h ⊢
      simp only [applyTaskOp, TaskManager.create_task]
      split
      · intro p hp
        simp only at hp
        rcases mem_aset _ _ _ p hp with rfl | hmem
        · simp
        · exact h p hmem
      · exact h
  | delete t =>
      unfold contextIndexOk at h ⊢
      simp only [applyTaskOp, TaskManager.delete_task]
      cases hg : aget tm.tasks t with
      | none => exact h
      | some ti =>
          intro p hp
          simp only at hp
          cases hc : aget tm.contexts ti.context_id with
          | none =>
              rw [hc] at hp
              exact h p hp
          | some l =>
              rw [hc] at hp
              by_cases he : (l.erase t).isEmpty
              · simp only [he, if_true] at hp
                exact h p (mem_aremove _ _ p hp)
              · simp only [he, Bool.false_eq_true, if_false] at hp
                rcases mem_aset _ _ _ p hp with rfl | hmem
                · exact fun hh => he (List.isEmpty_iff.mpr hh)
                · exact h p hmem

/-- C10: starting from a fresh TaskManager, after any sequence of
`create_task` and `delete_task` operations the context index never maps a
context id to an empty task-id list, and `get_task_statistics` counts under
`total_contexts` exactly the contexts whose indexed task-id list is
non-empty. -/
theorem context_index_never_empty (ops : List TaskOp) :
    (∀ p ∈ (applyTaskOps TaskManager.empty ops).contexts, p.2 ≠ []) ∧
    ((applyTaskOps TaskManager.empty ops).get_task_statistics).total_contexts =
      ((applyTaskOps TaskManager.empty ops).contexts.filter
        (fun p => !p.2.isEmpty)).length := by
  have key : ∀ (l : List TaskOp) (tm : TaskManager),
      contextIndexOk tm → contextIndexOk (applyTaskOps tm l) := by
    intro l
    induction l with
    | nil => intro tm h; exact h
    | cons op rest ih =>
        intro tm h
        exact ih _ (contextIndexOk_applyTaskOp tm op h)
  have h1 : contextIndexOk (applyTaskOps TaskManager.empty ops) :=
    key ops TaskManager.empty (by intro p hp; simp [TaskManager.empty] at hp)
  refine ⟨h1, ?_⟩
  have hf : (applyTaskOps TaskManager.empty ops).contexts.filter
      (fun p => !p.2.isEmpty) = (applyTaskOps TaskManager.empty ops).contexts :=
    List.filter_eq_self.mpr (fun p hp => by
      simpa [List.isEmpty_iff] using h1 p hp)
  rw [hf]
  simp [TaskManager.get_task_statistics]

/-- C1 (code bug): on a stored Pending task the legal-edge wrapper
`start_task` does not succeed — the source assigns the new status and stamps
`updated_at` before validating and then validates the already-overwritten
status against itself, so the call reports an error while the store keeps
the mutated task. -/
theorem start_task_legal_edge_raises_and_mutates :
    (tmOne.start_task "t1" 1).1.isOk = false ∧
    (aget tmOne.tasks "t1").map TaskInfo.status = some TaskStatus.pending ∧
    (aget (tmOne.start_task "t1" 1).2.tasks "t1").map TaskInfo.status =
      some TaskStatus.inProgress ∧
    (aget (tmOne.start_task "t1" 1).2.tasks "t1").bind TaskInfo.updated_at =
      some 1 := by decide

/-- C2 (code bug): an illegal transition request (Pending to Completed) does
fail with an error, but the stored task is not left unchanged — its status,
`output_data` and `updated_at` are all overwritten before the validation
that rejects the call. -/
theorem illegal_transition_error_still_mutates :
    (tmOne.update_task_status "t1" TaskStatus.completed
        (some [("d", Val.num 650)]) none 2).1.isOk = false ∧
    aget (tmOne.update_task_status "t1" TaskStatus.completed
        (some [("d", Val.num 650)]) none 2).2.tasks "t1" ≠ aget tmOne.tasks "t1" ∧
    (aget (tmOne.update_task_status "t1" TaskStatus.completed
        (some [("d", Val.num 650)]) none 2).2.tasks "t1").map TaskInfo.status =
      some TaskStatus.completed ∧
    (aget (tmOne.update_task_status "t1" TaskStatus.completed
        (some [("d", Val.num 650)]) none 2).2.tasks "t1").bind TaskInfo.output_data =
      some [("d", Val.num 650)] ∧
    (aget (tmOne.update_task_status "t1" TaskStatus.completed
        (some [("d", Val.num 650)]) none 2).2.tasks "t1").bind TaskInfo.updated_at =
      some 2 := by decide

/-- C3 counterexample: `create_task` with a task id that is already stored
raises no error at all — it returns ok and changes the store, contradicting
the claimed duplicate-task failure with unchanged state. -/
theorem create_task_duplicate_id_no_error :
    (tmOne.create_task "c2" "s2" [("k", Val.str "w")] "t1" 5).1.isOk = true ∧
    (tmOne.create_task "c2" "s2" [("k", Val.str "w")] "t1" 5).2 ≠ tmOne := by
  decide

/-- C3 (amended): `create_task` performs no duplicate check: for any current
state, with non-empty task id, context id, skill id and input data it
returns ok with a fresh Pending task, stores it under the id (overwriting
any task previously stored there), and appends the id to its context's
index list. -/
theorem create_task_overwrites_and_indexes (tm : TaskManager)
    (cid sid tid : String) (inp : Dict) (now : Nat)
    (htid : tid ≠ "") (hcid : cid ≠ "") (hsid : sid ≠ "") (hinp : inp ≠ []) :
    (tm.create_task cid sid inp tid now).1 =
      .ok { task_id := tid, context_id := cid, status := .pending,
            skill_id := sid, input_data := inp, created_at := some now } ∧
    aget (tm.create_task cid sid inp tid now).2.tasks tid =
      some { task_id := tid, context_id := cid, status := .pending,
             skill_id := sid, input_data := inp, created_at := some now } ∧
    aget (tm.create_task cid sid inp tid now).2.contexts cid =
      some ((aget tm.contexts cid).getD [] ++ [tid]) := by
  have hv : validateTaskInfo
      { task_id := tid, context_id := cid, status := .pending,
        skill_id := sid, input_data := inp, created_at := some now } = true := by
    simp [validateTaskInfo, bne_iff_ne, htid, hcid, hsid, List.isEmpty_iff, hinp]
  simp [TaskManager.create_task, hv, aget_aset_self]

/-- C3 amended-claim witness at a concrete duplicate id. -/
theorem create_task_overwrites_and_indexes_witness :
    (tmOne.create_task "c2" "s2" [("k", Val.str "w")] "t1" 5).1 =
      .ok { task_id := "t1", context_id := "c2", status := .pending,
            skill_id := "s2", input_data := [("k", Val.str "w")],
            created_at := some 5 } ∧
    aget (tmOne.create_task "c2" "s2" [("k", Val.str "w")] "t1" 5).2.tasks "t1" =
      some { task_id := "t1", context_id := "c2", status := .pending,
             skill_id := "s2", input_data := [("k", Val.str "w")],
             created_at := some 5 } ∧
    aget (tmOne.create_task "c2" "s2" [("k", Val.str "w")] "t1" 5).2.contexts "c2" =
      some ((aget tmOne.contexts "c2").getD [] ++ ["t1"]) :=
  create_task_overwrites_and_indexes tmOne "c2" "s2" "t1" [("k", Val.str "w")] 5
    (by decide) (by decide) (by decide) (by decide)

/-- C4 (code bug): cascading delete of a context holding two tasks removes
only the first — the source iterates the very list that `delete_task`
shortens, so the second task survives, the returned count is 1, and the
context still resolves to a non-empty task list afterwards. -/
theorem delete_context_two_tasks_deletes_only_one :
    (tmTwo.delete_context "c1").1 = 1 ∧
    (tmTwo.delete_context "c1").2.get_tasks_by_context "c1" ≠ [] ∧
    aget (tmTwo.delete_context "c1").2.tasks "t1" = none ∧
    (aget (tmTwo.delete_context "c1").2.tasks "t2").isSome = true := by decide

/-- C5: a put against a queue already holding exactly `max_size` events is a
silent drop: `put` returns normally (its type has no error outcome, matching
the source's plain `return`), all three lanes are untouched, the size stays
at `max_size`, and the drop counter increments by exactly 1. -/
theorem put_on_full_queue_drops (q : EventQueue) (e : Event) (p : Int)
    (h : q.getTotalSize = q.max_size) :
    (q.put e p).high_priority_queue = q.high_priority_queue ∧
    (q.put e p).normal_priority_queue = q.normal_priority_queue ∧
    (q.put e p).low_priority_queue = q.low_priority_queue ∧
    (q.put e p).size = q.max_size ∧
    (q.put e p).total_events_dropped = q.total_events_dropped + 1 := by
  have hge : q.getTotalSize ≥ q.max_size := le_of_eq h.symm
  simp [EventQueue.put, hge, EventQueue.size, EventQueue.getTotalSize,
    ← h, EventQueue.getTotalSize]

/-- C5 witness: a capacity-1 queue holding one event drops the next put. -/
theorem put_on_full_queue_drops_witness :
    (qFull.put (mkEv "b" 1) 1).high_priority_queue = qFull.high_priority_queue ∧
    (qFull.put (mkEv "b" 1) 1).normal_priority_queue = qFull.normal_priority_queue ∧
    (qFull.put (mkEv "b" 1) 1).low_priority_queue = qFull.low_priority_queue ∧
    (qFull.put (mkEv "b" 1) 1).size = qFull.max_size ∧
    (qFull.put (mkEv "b" 1) 1).total_events_dropped =
      qFull.total_events_dropped + 1 :=
  put_on_full_queue_drops qFull (mkEv "b" 1) 1 (by decide)

/-- C6: draining any queue returns the high lane, then the normal lane, then
the low lane, each in FIFO order; `get` on an all-empty queue returns none
and leaves the queue unchanged; and the concrete put sequence with
priorities high, normal, low, high of events e1..e4 is dequeued as
e1, e4, e2, e3. -/
theorem get_priority_fifo_order :
    (∀ q : EventQueue, q.drain q.size =
        q.high_priority_queue ++ q.normal_priority_queue ++ q.low_priority_queue) ∧
    (∀ ms pr dr, (EventQueue.mk ms [] [] [] pr dr).get =
        (none, EventQueue.mk ms [] [] [] pr dr)) ∧
    qScenario.drain 4 =
      [mkEv "e1" 1, mkEv "e4" 1, mkEv "e2" 0, mkEv "e3" (-1)] :=
  ⟨fun q => drain_eq q.size q le_rfl, fun _ _ _ => rfl, by decide⟩

/-- C7 counterexample: one agent that completes without placing any event on
its queue yields an empty Sequential result list, not one record per
agent. -/
theorem sequential_silent_agent_record_count :
    (sequentialOrchestration [silentAgent]).length ≠ [silentAgent].length := by
  decide

/-- C7 (amended): under Sequential, orchestration returns exactly one record
per agent that raised or whose queue yielded an event, in list order —
agents that complete silently contribute no record; under Loop, the result
is the concatenation, iteration-major, of one such record list per executed
iteration. -/
theorem orchestration_records_characterization (agents : List OAgent)
    (maxIter : Nat) :
    sequentialOrchestration agents = agents.filterMap seqRecordOf ∧
    loopOrchestration agents maxIter =
      (List.range' 0 (loopItersExecuted agents maxIter 0)).flatMap
        (fun it => agents.filterMap (loopRecordOf it)) := by
  constructor
  · have h := seqGo_eq agents []
    simpa [sequentialOrchestration] using h
  · have h := loopGo_eq agents maxIter 0 []
    have hfun : loopIteration agents = fun it => agents.filterMap (loopRecordOf it) :=
      funext (loopIteration_eq agents)
    simpa [loopOrchestration, hfun] using h

/-- C8: `discover_agents` returns exactly the registered cards satisfying
the specification's predicate — all required skill names present among the
card's skill names, all metadata constraints mapped to exactly the required
value, absent clauses and absent query imposing no constraint. -/
theorem discover_agents_exact_match (d : AgentDiscovery)
    (query : Option AgentQuery) (card : DiscoveryCard) :
    card ∈ d.discover_agents query ↔
      card ∈ d.agent_registry.map Prod.snd ∧ specMatches card query := by
  unfold AgentDiscovery.discover_agents
  rw [List.mem_filter, matchesQuery_iff]

/-- C9: for an existing context, `update_context` with a metadata map merges
it into the stored metadata — every key of the update takes its new value,
every other key keeps its old value — and leaves name and description
unchanged when the update carries neither. -/
theorem update_context_merges_metadata (cm : ContextManager) (cid : String)
    (c : ContextInfo) (updates : ContextUpdates) (m : Dict) (now : Nat)
    (hc : aget cm.contexts cid = some c) (hm : updates.metadata = some m)
    (hnd : (m.map Prod.fst).Nodup)
    (hn : updates.name = none) (hd : updates.description = none) :
    aget ((cm.update_context cid updates now).2).contexts cid =
      some { c with metadata := dictMerge c.metadata m, updated_at := now } ∧
    ∀ k, aget (dictMerge c.metadata m) k = (aget m k).or (aget c.metadata k) := by
  constructor
  · simp only [ContextManager.update_context, hc, hm, hn, hd, Option.getD_none]
    split <;> simp [aget_aset_self]
  · exact fun k => dictMerge_aget c.metadata m hnd k

/-- Concrete context store for the C9 witness. -/
def cNine : ContextInfo :=
  mkContextInfo "c1" (some "n") (some "d")
    (some [("a", Val.num 1), ("b", Val.num 2)]) 0

def cmNine : ContextManager := ⟨[("c1", cNine)]⟩

def updNine : ContextUpdates :=
  { metadata := some [("b", Val.num 3), ("c", Val.num 4)] }

/-- C9 witness at a concrete context and update. -/
theorem update_context_merges_metadata_witness :
    aget ((cmNine.update_context "c1" updNine 7).2).contexts "c1" =
      some { cNine with
             metadata := dictMerge cNine.metadata [("b", Val.num 3), ("c", Val.num 4)],
             updated_at := 7 } :=
  (update_context_merges_metadata cmNine "c1" cNine updNine
    [("b", Val.num 3), ("c", Val.num 4)] 7 rfl rfl (by decide) rfl rfl).1

end CorpChat
